import Mathlib

/-!
Shallow embedding of the per-account job scheduler (`JobManager`) of the
Zoho CRM/Bigin bulk contact-creation and email-dispatch server, in the
platform-keyed variant (job key `"{platform}-{accountId}"`).

The remote world (account storage, token provider, Zoho API responses) is
modelled by explicit environment values passed to each dispatch; the
scheduler's own logic (job table, status machine, cursor/results
book-keeping, timer book-keeping, verification-task mutation) is translated
directly from the source.
-/

namespace ZohoJobs

/-- `platform: 'crm' | 'bigin'`. -/
inductive Platform
  | crm
  | bigin
deriving DecidableEq, Repr

/-- `status: 'processing' | 'paused' | 'stopped' | 'completed' | 'failed'`. -/
inductive JobStatus
  | processing
  | paused
  | stopped
  | completed
  | failed
deriving DecidableEq, Repr

/-- `contactStatus: 'Success' | 'Failed'` — the create-stage outcome type. -/
inductive CStatus
  | success
  | failed
deriving DecidableEq, Repr

/-- `emailStatus: 'Success' | 'Failed' | 'Skipped'` — the send-stage outcome type. -/
inductive EStatus
  | success
  | failed
  | skipped
deriving DecidableEq, Repr

/-- One entry of `formData.fromAddresses`. -/
structure FromAddress where
  user_name : String
  email : String
deriving DecidableEq, Repr

/-- The `formData` flags and fields the scheduler branches on. -/
structure FormData where
  sendEmail : Bool
  checkStatus : Bool
  checkDelay : Option Nat
  fromAddresses : List FromAddress
  fromEmail : String
  lastName : String
deriving DecidableEq, Repr

/-- `contactResponse.data.data[0]` — the fields the create stage inspects:
`status`, `code`, `details.id`. -/
structure ContactEntry where
  status : String
  code : String
  id : String
deriving DecidableEq, Repr

/-- Outcome of the `axios.post(.../Contacts, ...)` call: either the promise
rejects (HTTP error / network error) or a response body arrives. -/
inductive ContactCall
  | thrown (msg : String)
  | ok (entry : ContactEntry)
deriving DecidableEq, Repr

/-- Outcome of the `axios.post(.../actions/send_mail, ...)` call: rejection,
or a response carrying `data[0].status`. -/
inductive EmailCall
  | thrown (msg : String)
  | ok (status : String)
deriving DecidableEq, Repr

/-- The external world as seen by one dispatch (`processEmail` body):
whether `storage.getAccount` finds the account, whether `getAccessToken`
resolves, and the two remote calls' outcomes. -/
structure DispatchEnv where
  accountFound : Bool
  tokenOk : Bool
  contactCall : ContactCall
  emailCall : EmailCall
deriving DecidableEq, Repr

/-- What one dispatch computes before the `finally` block: the two stage
outcomes, the captured contact id, the id the send stage posted to (the
`contactId` in the send URL, when the send branch ran), and the critical
error message when the outer `try` threw. -/
structure DispatchOutcome where
  contactStatus : CStatus
  emailStatus : EStatus
  contactId : Option String
  sendTarget : Option String
  critical : Option String
deriving DecidableEq, Repr

/-- The try-block of `processEmail`, translated control-path by control-path:
account lookup, token, from-address check (throws only when `sendEmail`),
create stage (`status === 'success' || code === 'DUPLICATE_DATA'` →
`Success` + id), send stage (`if (contactId && formData.sendEmail)` …
`else if (!formData.sendEmail)` Skipped; no other else, so the initial
`'Skipped'` is retained when `sendEmail` is true but no id was captured). -/
def dispatchCompute (env : DispatchEnv) (fd : FormData) : DispatchOutcome :=
  if env.accountFound = false then
    { contactStatus := CStatus.failed, emailStatus := EStatus.skipped,
      contactId := none, sendTarget := none,
      critical := some "Account not found." }
  else if env.tokenOk = false then
    { contactStatus := CStatus.failed, emailStatus := EStatus.skipped,
      contactId := none, sendTarget := none,
      critical := some "Invalid refresh token or other Zoho API error." }
  else
    let fromAddr := fd.fromAddresses.find? (fun a => a.email == fd.fromEmail)
    if fd.sendEmail && fromAddr.isNone then
      { contactStatus := CStatus.failed, emailStatus := EStatus.skipped,
        contactId := none, sendTarget := none,
        critical := some "From address not found" }
    else
      let createRes : CStatus × Option String :=
        match env.contactCall with
        | ContactCall.thrown _ => (CStatus.failed, none)
        | ContactCall.ok e =>
          if e.status == "success" || e.code == "DUPLICATE_DATA" then
            (CStatus.success, some e.id)
          else
            (CStatus.failed, none)
      let cid := createRes.2
      let sendRes : EStatus × Option String :=
        match cid, fd.sendEmail with
        | some i, true =>
          match env.emailCall with
          | EmailCall.thrown _ => (EStatus.failed, some i)
          | EmailCall.ok st =>
            (if st == "success" then EStatus.success else EStatus.failed, some i)
        | _, false => (EStatus.skipped, none)
        | none, true => (EStatus.skipped, none)
      { contactStatus := createRes.1, emailStatus := sendRes.1,
        contactId := cid, sendTarget := sendRes.2, critical := none }

/-- A benign environment: account found, token fresh, contact created with
id `"42"`, email sent. -/
def okEnv : DispatchEnv :=
  { accountFound := true, tokenOk := true,
    contactCall := ContactCall.ok { status := "success", code := "", id := "42" },
    emailCall := EmailCall.ok "success" }

/-- Form data for a create-only job: no email sending, no live check. -/
def fdPlain : FormData :=
  { sendEmail := false, checkStatus := false, checkDelay := none,
    fromAddresses := [], fromEmail := "", lastName := "Doe" }

example :
    dispatchCompute okEnv fdPlain =
      { contactStatus := CStatus.success, emailStatus := EStatus.skipped,
        contactId := some "42", sendTarget := none, critical := none } := by
  decide

example :
    (dispatchCompute { okEnv with accountFound := false } fdPlain).critical =
      some "Account not found." := by
  decide

/-- The `status` field of one entry of the message history returned by the
verification fetch: a Bigin-style array of `{type}` objects, a plain string,
or anything else (absent / empty-array both take the `'Unknown'` path). -/
inductive StatusField
  | arr (types : List String)
  | str (s : String)
  | other
deriving DecidableEq, Repr

/-- One entry of `response.data.Emails || response.data.email_related_list
|| response.data.data`. -/
structure EmailHistEntry where
  status : StatusField
deriving DecidableEq, Repr

/-- The body of the verification fetch's response: the message-history list
(`[]` models both an absent list and an empty one — `emails &&
emails.length > 0` treats them alike). -/
structure LiveResponse where
  entries : List EmailHistEntry
deriving DecidableEq, Repr

/-- The `response.live` capture on a result record: the raw fetch body, or
the `{ error: err.message }` object written on exception. -/
inductive LiveCapture
  | raw (data : LiveResponse)
  | failure (msg : String)
deriving DecidableEq, Repr

/-- The external world as seen by one verification task: the account
vanished (`if (!account) return`), some step threw (token refresh, fetch),
or the fetch returned a body. -/
inductive CheckEnv
  | accountMissing
  | exn (msg : String)
  | ok (resp : LiveResponse)
deriving DecidableEq, Repr

/-- One per-item result record (`resultItem`): identity fields set at
append time plus the two fields the verification task later mutates. -/
structure ResultItem where
  email : Option String
  contactStatus : CStatus
  emailStatus : EStatus
  liveStatus : String
  liveResp : Option LiveCapture
deriving DecidableEq, Repr

/-- `if (Array.isArray(latest.status) && latest.status.length > 0) type =
latest.status[0].type; else if (typeof latest.status === 'string') type =
latest.status;` with `type` initialised to `'Unknown'`. -/
def statusType : StatusField → String
  | StatusField.arr [] => "Unknown"
  | StatusField.arr (t :: _) => t
  | StatusField.str s => s
  | StatusField.other => "Unknown"

/-- ASCII lowering of one character (the status markers compared against
`'sent'`/`'bounced'` are ASCII). -/
def lowerChar (c : Char) : Char :=
  if 65 ≤ c.toNat ∧ c.toNat ≤ 90 then Char.ofNat (c.toNat + 32) else c

/-- `type.toLowerCase()` for the ASCII status markers. -/
def lowerStr (s : String) : String :=
  ⟨s.data.map lowerChar⟩

/-- The sent/bounced normalisation applied to the extracted type. -/
def normalizeType (t : String) : String :=
  if lowerStr t == "sent" then "Sent"
  else if lowerStr t == "bounced" then "Bounced"
  else t

/-- The verification task's effect on the one result record it holds:
early return on missing account, `"Failed Check"` + error capture on any
exception, else raw capture + status extraction (`"Not Found"` when the
history list is absent/empty). -/
def runVerification (env : CheckEnv) (item : ResultItem) : ResultItem :=
  match env with
  | CheckEnv.accountMissing => item
  | CheckEnv.exn msg =>
    { item with liveStatus := "Failed Check", liveResp := some (LiveCapture.failure msg) }
  | CheckEnv.ok resp =>
    match resp.entries with
    | [] => { item with liveStatus := "Not Found", liveResp := some (LiveCapture.raw resp) }
    | latest :: _ =>
      { item with liveStatus := normalizeType (statusType latest.status),
                  liveResp := some (LiveCapture.raw resp) }

example :
    (runVerification (CheckEnv.ok { entries := [{ status := StatusField.arr ["sent"] }] })
      { email := some "a@b.c", contactStatus := CStatus.success,
        emailStatus := EStatus.success, liveStatus := "Pending",
        liveResp := none }).liveStatus = "Sent" := by
  decide

/-- One job record (`interface Job`). -/
structure Job where
  accountId : String
  emails : List String
  results : List ResultItem
  status : JobStatus
  currentIndex : Nat
  totalEmails : Nat
  delay : Nat
  formData : FormData
  error : Option String
  countdown : Nat
  platform : Platform
deriving DecidableEq, Repr

/-- Association-list lookup keyed by strings (the `Map.get` of the job
table; `none` models `undefined`). -/
def alGet {α : Type} : List (String × α) → String → Option α
  | [], _ => none
  | (k', v) :: t, k => if k' = k then some v else alGet t k

/-- Association-list insert-or-replace (the `Map.set` of the job table). -/
def alSet {α : Type} : List (String × α) → String → α → List (String × α)
  | [], k, v => [(k, v)]
  | (k', v') :: t, k, v =>
    if k' = k then (k, v) :: t else (k', v') :: alSet t k v

/-- The `JobManager`'s mutable state: the job table plus the presence of a
pending dispatch timer and countdown ticker per job key (the handles
themselves carry no other observable information). -/
structure MState where
  jobs : List (String × Job)
  timers : List String
  tickers : List String
deriving DecidableEq, Repr

/-- `'{platform}-{accountId}'`. -/
def platformTag : Platform → String
  | Platform.crm => "crm"
  | Platform.bigin => "bigin"

/-- `getJobKey`. -/
def getJobKey (platform : Platform) (accountId : String) : String :=
  platformTag platform ++ "-" ++ accountId

/-- `clearTimers`: drop both the dispatch timer and the countdown ticker
for the key. -/
def clearTimers (s : MState) (k : String) : MState :=
  { s with timers := s.timers.filter (fun x => x != k),
           tickers := s.tickers.filter (fun x => x != k) }

/-- Arm a timer/ticker entry for a key (a fresh `setTimeout`/`setInterval`
handle is stored under the key; only presence is observable). -/
def armKey (l : List String) (k : String) : List String :=
  if k ∈ l then l else k :: l

/-- `scheduleNext`: no-op unless the job exists and is `processing`; mark
`completed` and clear timers when the cursor has consumed all items; else
reset the countdown and arm the ticker and the dispatch timer. -/
def scheduleNext (s : MState) (k : String) : MState :=
  match alGet s.jobs k with
  | none => s
  | some job =>
    if job.status = JobStatus.processing then
      if job.totalEmails ≤ job.currentIndex then
        clearTimers
          { s with jobs := alSet s.jobs k { job with status := JobStatus.completed } } k
      else
        { s with jobs := alSet s.jobs k { job with countdown := job.delay },
                 tickers := armKey s.tickers k,
                 timers := armKey s.timers k }
    else s

/-- The result record built in the `finally` block:
`{ email, contactStatus, emailStatus, liveStatus: checkStatus ? 'Pending'
: 'Skipped', response: { …, live: null } }`. `email` is
`job.emails[job.currentIndex]`, which is `undefined` (`none`) past the end
of the list. -/
def resultOf (env : DispatchEnv) (j : Job) : ResultItem :=
  let d := dispatchCompute env j.formData
  { email := j.emails.get? j.currentIndex,
    contactStatus := d.contactStatus,
    emailStatus := d.emailStatus,
    liveStatus := if j.formData.checkStatus then "Pending" else "Skipped",
    liveResp := none }

/-- The job record after the body of one dispatch: the critical-error
handler (status → `failed`, `error` set), then the `finally` block's
append and cursor increment. -/
def jobAfterDispatch (env : DispatchEnv) (j : Job) : Job :=
  let d := dispatchCompute env j.formData
  let j1 :=
    match d.critical with
    | some msg => { j with status := JobStatus.failed, error := some msg }
    | none => j
  { j1 with results := j1.results ++ [resultOf env j],
            currentIndex := j1.currentIndex + 1 }

/-- `if (formData.checkStatus && contactId)` — the id a background
verification task is launched to monitor, when one is launched. -/
def launchOf (env : DispatchEnv) (j : Job) : Option String :=
  let d := dispatchCompute env j.formData
  if j.formData.checkStatus && d.contactId.isSome then d.contactId else none

/-- `processEmail`: returns unchanged when the job is missing or not
`processing`; otherwise runs the dispatch body, stores the updated job,
and reschedules. The second component is the id a verification task was
launched for (`none` when none was). -/
def processEmail (env : DispatchEnv) (s : MState) (k : String) :
    MState × Option String :=
  match alGet s.jobs k with
  | none => (s, none)
  | some job =>
    if job.status = JobStatus.processing then
      (scheduleNext { s with jobs := alSet s.jobs k (jobAfterDispatch env job) } k,
       launchOf env job)
    else (s, none)

/-- The fresh record `startJob` installs. -/
def freshJob (accountId : String) (emails : List String) (delay : Nat)
    (fd : FormData) (platform : Platform) : Job :=
  { accountId := accountId, emails := emails, results := [],
    status := JobStatus.processing, currentIndex := 0,
    totalEmails := emails.length, delay := delay, formData := fd,
    error := none, countdown := 0, platform := platform }

/-- `startJob`: no-op when the key's record is already `processing`; else
install a fresh record and immediately dispatch the first item. -/
def startJob (env : DispatchEnv) (s : MState) (accountId : String)
    (emails : List String) (delay : Nat) (fd : FormData)
    (platform : Platform) : MState :=
  let k := getJobKey platform accountId
  match alGet s.jobs k with
  | some j =>
    if j.status = JobStatus.processing then s
    else
      (processEmail env
        { s with jobs := alSet s.jobs k (freshJob accountId emails delay fd platform) } k).1
  | none =>
    (processEmail env
      { s with jobs := alSet s.jobs k (freshJob accountId emails delay fd platform) } k).1

/-- `stopJob`: clear timers, then set `status = 'stopped'` on the record
if one exists — with no status precondition. -/
def stopJob (s : MState) (accountId : String) (platform : Platform) : MState :=
  let k := getJobKey platform accountId
  let s1 := clearTimers s k
  match alGet s1.jobs k with
  | none => s1
  | some job => { s1 with jobs := alSet s1.jobs k { job with status := JobStatus.stopped } }

/-- `pauseJob`: clear timers, then set `status = 'paused'` only when the
record exists and is `processing`. -/
def pauseJob (s : MState) (accountId : String) (platform : Platform) : MState :=
  let k := getJobKey platform accountId
  let s1 := clearTimers s k
  match alGet s1.jobs k with
  | none => s1
  | some job =>
    if job.status = JobStatus.processing then
      { s1 with jobs := alSet s1.jobs k { job with status := JobStatus.paused } }
    else s1

/-- `resumeJob`: when the record exists and is `paused`, set `processing`
and re-arm via `scheduleNext` (the next dispatch itself happens when the
armed timer later fires). -/
def resumeJob (s : MState) (accountId : String)
    (platform : Platform) : MState :=
  let k := getJobKey platform accountId
  match alGet s.jobs k with
  | none => s
  | some job =>
    if job.status = JobStatus.paused then
      scheduleNext { s with jobs := alSet s.jobs k { job with status := JobStatus.processing } } k
    else s

/-- The `setTimeout` callback installed by `scheduleNext` firing: it runs
only while its timer is armed (cancelled timers never fire), and first
clears the key's timers, then dispatches. -/
def fireTimer (env : DispatchEnv) (s : MState) (k : String) : MState :=
  if k ∈ s.timers then (processEmail env (clearTimers s k) k).1 else s

/-- One beat of the countdown `setInterval`: runs only while armed;
decrements the job's countdown when positive. -/
def tickSecond (s : MState) (k : String) : MState :=
  if k ∈ s.tickers then
    match alGet s.jobs k with
    | none => s
    | some job =>
      if 0 < job.countdown then
        { s with jobs := alSet s.jobs k { job with countdown := job.countdown - 1 } }
      else s
  else s

/-- A launched verification task completing: it holds a reference to the
result record it was launched for (slot `i` of job `k`'s results) and
mutates that record in place per `runVerification`; if the slot is gone it
does nothing. -/
def verifComplete (cenv : CheckEnv) (s : MState) (k : String) (i : Nat) : MState :=
  match alGet s.jobs k with
  | none => s
  | some job =>
    match job.results.get? i with
    | none => s
    | some item =>
      let job' := { job with results := job.results.set i (runVerification cenv item) }
      { s with jobs := alSet s.jobs k job' }

/-- The events the scheduler's world consists of: the four public
operations, a dispatch timer firing, a countdown tick, and a verification
task completing. Each dispatch-triggering event carries the remote world
it will observe. -/
inductive Op
  | start (accountId : String) (platform : Platform) (emails : List String)
      (delay : Nat) (fd : FormData) (env : DispatchEnv)
  | stop (accountId : String) (platform : Platform)
  | pause (accountId : String) (platform : Platform)
  | resume (accountId : String) (platform : Platform)
  | timer (k : String) (env : DispatchEnv)
  | tick (k : String)
  | verif (k : String) (i : Nat) (cenv : CheckEnv)
deriving DecidableEq, Repr

/-- The job key an event addresses. -/
def Op.key : Op → String
  | Op.start acc plat _ _ _ _ => getJobKey plat acc
  | Op.stop acc plat => getJobKey plat acc
  | Op.pause acc plat => getJobKey plat acc
  | Op.resume acc plat => getJobKey plat acc
  | Op.timer k _ => k
  | Op.tick k => k
  | Op.verif k _ _ => k

/-- One event's effect on the manager state. -/
def step (s : MState) : Op → MState
  | Op.start acc plat emails delay fd env => startJob env s acc emails delay fd plat
  | Op.stop acc plat => stopJob s acc plat
  | Op.pause acc plat => pauseJob s acc plat
  | Op.resume acc plat => resumeJob s acc plat
  | Op.timer k env => fireTimer env s k
  | Op.tick k => tickSecond s k
  | Op.verif k i cenv => verifComplete cenv s k i

/-- Run a sequence of events. -/
def run (s : MState) : List Op → MState
  | [] => s
  | op :: ops => run (step s op) ops

/-- The empty manager: no jobs, no timers. -/
def initState : MState :=
  { jobs := [], timers := [], tickers := [] }

example :
    (alGet (run initState
      [Op.start "1" Platform.crm ["x@a.com"] 0 fdPlain okEnv]).jobs "crm-1").map
        Job.status = some JobStatus.completed := by
  decide

example :
    (alGet (run initState
      [Op.start "1" Platform.crm [] 0 fdPlain okEnv]).jobs "crm-1").map
        Job.currentIndex = some 1 := by
  decide

/-- A status from which the state machine never again reaches `processing`
without a fresh `start`. -/
def Terminal (st : JobStatus) : Prop :=
  st = JobStatus.stopped ∨ st = JobStatus.completed ∨ st = JobStatus.failed

instance (st : JobStatus) : Decidable (Terminal st) := by
  unfold Terminal
  infer_instance

theorem Terminal.ne_processing {st : JobStatus} (h : Terminal st) :
    st ≠ JobStatus.processing := by
  rcases h with h | h | h <;> subst h <;> intro hc <;> cases hc

theorem Terminal.ne_paused {st : JobStatus} (h : Terminal st) :
    st ≠ JobStatus.paused := by
  rcases h with h | h | h <;> subst h <;> intro hc <;> cases hc

theorem alGet_alSet_self {α : Type} (l : List (String × α)) (k : String) (v : α) :
    alGet (alSet l k v) k = some v := by
  induction l with
  | nil => simp [alGet, alSet]
  | cons hd t ih =>
    obtain ⟨k', v'⟩ := hd
    by_cases hk : k' = k
    · simp [alSet, hk, alGet]
    · simp [alSet, hk, alGet, ih]

theorem alGet_alSet_ne {α : Type} (l : List (String × α)) (k k' : String) (v : α)
    (h : k ≠ k') : alGet (alSet l k v) k' = alGet l k' := by
  induction l with
  | nil => simp [alGet, alSet, h]
  | cons hd t ih =>
    obtain ⟨k₀, v₀⟩ := hd
    by_cases hk : k₀ = k
    · subst hk
      simp [alSet, alGet, h]
    · simp [alSet, alGet, hk, ih]

theorem clearTimers_jobs (s : MState) (k : String) :
    (clearTimers s k).jobs = s.jobs := rfl

theorem scheduleNext_jobs_ne (s : MState) (k k' : String) (h : k ≠ k') :
    alGet (scheduleNext s k).jobs k' = alGet s.jobs k' := by
  unfold scheduleNext
  cases hj : alGet s.jobs k with
  | none => rfl
  | some job =>
    by_cases hp : job.status = JobStatus.processing
    · by_cases hc : job.totalEmails ≤ job.currentIndex
      · simp [hp, hc, clearTimers, alGet_alSet_ne _ _ _ _ h]
      · simp [hp, hc, alGet_alSet_ne _ _ _ _ h]
    · simp [hp]

theorem processEmail_jobs_ne (env : DispatchEnv) (s : MState) (k k' : String)
    (h : k ≠ k') :
    alGet (processEmail env s k).1.jobs k' = alGet s.jobs k' := by
  unfold processEmail
  cases hj : alGet s.jobs k with
  | none => rfl
  | some job =>
    by_cases hp : job.status = JobStatus.processing
    · simp [hp, scheduleNext_jobs_ne _ _ _ h, alGet_alSet_ne _ _ _ _ h]
    · simp [hp]

theorem processEmail_none (env : DispatchEnv) (s : MState) (k : String)
    (h : alGet s.jobs k = none) : processEmail env s k = (s, none) := by
  unfold processEmail
  rw [h]

theorem processEmail_notProcessing (env : DispatchEnv) (s : MState) (k : String)
    (j : Job) (h : alGet s.jobs k = some j) (hp : j.status ≠ JobStatus.processing) :
    processEmail env s k = (s, none) := by
  unfold processEmail
  rw [h]
  simp [hp]

theorem scheduleNext_none (s : MState) (k : String)
    (h : alGet s.jobs k = none) : scheduleNext s k = s := by
  unfold scheduleNext
  rw [h]

theorem scheduleNext_notProcessing (s : MState) (k : String) (j : Job)
    (h : alGet s.jobs k = some j) (hp : j.status ≠ JobStatus.processing) :
    scheduleNext s k = s := by
  unfold scheduleNext
  rw [h]
  simp [hp]

theorem step_jobs_ne (s : MState) (op : Op) (k : String) (h : op.key ≠ k) :
    alGet (step s op).jobs k = alGet s.jobs k := by
  cases op with
  | start acc plat emails delay fd env =>
    have hkey : getJobKey plat acc ≠ k := h
    simp only [step, startJob]
    cases hj : alGet s.jobs (getJobKey plat acc) with
    | none =>
      simp [processEmail_jobs_ne env _ _ _ hkey, alGet_alSet_ne _ _ _ _ hkey]
    | some j =>
      by_cases hp : j.status = JobStatus.processing
      · simp [hp]
      · simp [hp, processEmail_jobs_ne env _ _ _ hkey, alGet_alSet_ne _ _ _ _ hkey]
  | stop acc plat =>
    have hkey : getJobKey plat acc ≠ k := h
    simp only [step, stopJob]
    cases hj : alGet (clearTimers s (getJobKey plat acc)).jobs (getJobKey plat acc) with
    | none => rfl
    | some j => simp [clearTimers, alGet_alSet_ne _ _ _ _ hkey]
  | pause acc plat =>
    have hkey : getJobKey plat acc ≠ k := h
    simp only [step, pauseJob]
    cases hj : alGet (clearTimers s (getJobKey plat acc)).jobs (getJobKey plat acc) with
    | none => rfl
    | some j =>
      by_cases hp : j.status = JobStatus.processing
      · simp [hp, clearTimers, alGet_alSet_ne _ _ _ _ hkey]
      · simp [hp, clearTimers]
  | resume acc plat =>
    have hkey : getJobKey plat acc ≠ k := h
    simp only [step, resumeJob]
    cases hj : alGet s.jobs (getJobKey plat acc) with
    | none => rfl
    | some j =>
      by_cases hp : j.status = JobStatus.paused
      · simp [hp, scheduleNext_jobs_ne _ _ _ hkey, alGet_alSet_ne _ _ _ _ hkey]
      · simp [hp]
  | timer k₀ env =>
    have hkey : k₀ ≠ k := h
    simp only [step]
    unfold fireTimer
    by_cases hm : k₀ ∈ s.timers
    · simp [hm, processEmail_jobs_ne env _ _ _ hkey, clearTimers]
    · simp [hm]
  | tick k₀ =>
    have hkey : k₀ ≠ k := h
    simp only [step]
    unfold tickSecond
    by_cases hm : k₀ ∈ s.tickers
    · cases hj : alGet s.jobs k₀ with
      | none => simp [hm]
      | some j =>
        by_cases hc : 0 < j.countdown
        · simp [hm, hc, alGet_alSet_ne _ _ _ _ hkey]
        · simp [hm, hc]
    · simp [hm]
  | verif k₀ i cenv =>
    have hkey : k₀ ≠ k := h
    simp only [step]
    unfold verifComplete
    split
    · rfl
    · split
      · rfl
      · simp [alGet_alSet_ne _ _ _ _ hkey]

/-- Whether an event is a `start` call whose composite key is `k`. -/
def Op.startsKey (op : Op) (k : String) : Bool :=
  match op with
  | Op.start acc plat _ _ _ _ => getJobKey plat acc == k
  | _ => false

/-- Whether an event is a verification-task completion targeting key `k`. -/
def Op.verifsKey (op : Op) (k : String) : Bool :=
  match op with
  | Op.verif k' _ _ => k' == k
  | _ => false

/-- Whether an event is a `resume` call whose composite key is `k`. -/
def Op.resumesKey (op : Op) (k : String) : Bool :=
  match op with
  | Op.resume acc plat => getJobKey plat acc == k
  | _ => false

theorem terminal_frozen_step (s : MState) (k : String) (j : Job) (op : Op)
    (hj : alGet s.jobs k = some j) (ht : Terminal j.status)
    (h1 : op.startsKey k = false) (h2 : op.verifsKey k = false) :
    ∃ j', alGet (step s op).jobs k = some j' ∧ Terminal j'.status ∧
      (j'.status = j.status ∨ j'.status = JobStatus.stopped) ∧
      j'.currentIndex = j.currentIndex ∧ j'.results = j.results := by
  by_cases hk : op.key = k
  case neg =>
    refine ⟨j, ?_, ht, Or.inl rfl, rfl, rfl⟩
    rw [step_jobs_ne s op k hk, hj]
  case pos =>
    cases op with
    | start acc plat emails delay fd env =>
      exfalso
      have : getJobKey plat acc = k := hk
      simp [Op.startsKey, this] at h1
    | stop acc plat =>
      have hkk : getJobKey plat acc = k := hk
      refine ⟨{ j with status := JobStatus.stopped }, ?_, ?_, Or.inr rfl, rfl, rfl⟩
      · simp only [step, stopJob, hkk, clearTimers_jobs]
        rw [hj]
        simp [clearTimers, alGet_alSet_self]
      · exact Or.inl rfl
    | pause acc plat =>
      have hkk : getJobKey plat acc = k := hk
      refine ⟨j, ?_, ht, Or.inl rfl, rfl, rfl⟩
      simp only [step, pauseJob, hkk, clearTimers_jobs]
      rw [hj]
      simp [ht.ne_processing, clearTimers, hj]
    | resume acc plat =>
      have hkk : getJobKey plat acc = k := hk
      refine ⟨j, ?_, ht, Or.inl rfl, rfl, rfl⟩
      simp only [step, resumeJob, hkk]
      rw [hj]
      simp [ht.ne_paused, hj]
    | timer k₀ env =>
      have hkk : k₀ = k := hk
      subst hkk
      refine ⟨j, ?_, ht, Or.inl rfl, rfl, rfl⟩
      simp only [step]
      unfold fireTimer
      by_cases hm : k₀ ∈ s.timers
      · rw [if_pos hm]
        have hj' : alGet (clearTimers s k₀).jobs k₀ = some j := hj
        rw [processEmail_notProcessing env _ _ j hj' ht.ne_processing]
        exact hj
      · rw [if_neg hm]
        exact hj
    | tick k₀ =>
      have hkk : k₀ = k := hk
      subst hkk
      simp only [step]
      unfold tickSecond
      by_cases hm : k₀ ∈ s.tickers
      · rw [if_pos hm, hj]
        by_cases hc : 0 < j.countdown
        · refine ⟨{ j with countdown := j.countdown - 1 }, ?_, ht, Or.inl rfl, rfl, rfl⟩
          simp [hc, alGet_alSet_self]
        · refine ⟨j, ?_, ht, Or.inl rfl, rfl, rfl⟩
          simp [hc, hj]
      · rw [if_neg hm]
        exact ⟨j, hj, ht, Or.inl rfl, rfl, rfl⟩
    | verif k₀ i cenv =>
      exfalso
      have : k₀ = k := hk
      simp [Op.verifsKey, this] at h2

theorem terminal_frozen_run (k : String) :
    ∀ (ops : List Op) (s : MState) (j : Job),
      alGet s.jobs k = some j → Terminal j.status →
      (∀ op ∈ ops, op.startsKey k = false ∧ op.verifsKey k = false) →
      ∃ j', alGet (run s ops).jobs k = some j' ∧ Terminal j'.status ∧
        (j'.status = j.status ∨ j'.status = JobStatus.stopped) ∧
        j'.currentIndex = j.currentIndex ∧ j'.results = j.results := by
  intro ops
  induction ops with
  | nil =>
    intro s j hj ht _
    exact ⟨j, hj, ht, Or.inl rfl, rfl, rfl⟩
  | cons op ops ih =>
    intro s j hj ht hav
    obtain ⟨h1, h2⟩ := hav op (List.mem_cons_self _ _)
    obtain ⟨j1, hj1, ht1, hs1, hc1, hr1⟩ := terminal_frozen_step s k j op hj ht h1 h2
    obtain ⟨j2, hj2, ht2, hs2, hc2, hr2⟩ :=
      ih (step s op) j1 hj1 ht1 (fun o ho => hav o (List.mem_cons_of_mem _ ho))
    refine ⟨j2, hj2, ht2, ?_, hc2.trans hc1, hr2.trans hr1⟩
    rcases hs2 with h | h
    · rcases hs1 with h' | h'
      · exact Or.inl (h.trans h')
      · exact Or.inr (h.trans h')
    · exact Or.inr h

theorem notProcessing_frozen_step (s : MState) (k : String) (j : Job) (op : Op)
    (hj : alGet s.jobs k = some j) (hnp : j.status ≠ JobStatus.processing)
    (h1 : op.startsKey k = false) (h2 : op.resumesKey k = false) :
    ∃ j', alGet (step s op).jobs k = some j' ∧ j'.status ≠ JobStatus.processing ∧
      j'.currentIndex = j.currentIndex ∧ j'.results.length = j.results.length := by
  by_cases hk : op.key = k
  case neg =>
    refine ⟨j, ?_, hnp, rfl, rfl⟩
    rw [step_jobs_ne s op k hk, hj]
  case pos =>
    cases op with
    | start acc plat emails delay fd env =>
      exfalso
      have : getJobKey plat acc = k := hk
      simp [Op.startsKey, this] at h1
    | stop acc plat =>
      have hkk : getJobKey plat acc = k := hk
      refine ⟨{ j with status := JobStatus.stopped }, ?_, ?_, rfl, rfl⟩
      · simp only [step, stopJob, hkk, clearTimers_jobs]
        rw [hj]
        simp [clearTimers, alGet_alSet_self]
      · intro hcon
        cases hcon
    | pause acc plat =>
      have hkk : getJobKey plat acc = k := hk
      refine ⟨j, ?_, hnp, rfl, rfl⟩
      simp only [step, pauseJob, hkk, clearTimers_jobs]
      rw [hj]
      simp [hnp, clearTimers, hj]
    | resume acc plat =>
      exfalso
      have : getJobKey plat acc = k := hk
      simp [Op.resumesKey, this] at h2
    | timer k₀ env =>
      have hkk : k₀ = k := hk
      subst hkk
      refine ⟨j, ?_, hnp, rfl, rfl⟩
      simp only [step]
      unfold fireTimer
      by_cases hm : k₀ ∈ s.timers
      · rw [if_pos hm]
        have hj' : alGet (clearTimers s k₀).jobs k₀ = some j := hj
        rw [processEmail_notProcessing env _ _ j hj' hnp]
        exact hj
      · rw [if_neg hm]
        exact hj
    | tick k₀ =>
      have hkk : k₀ = k := hk
      subst hkk
      simp only [step]
      unfold tickSecond
      by_cases hm : k₀ ∈ s.tickers
      · rw [if_pos hm, hj]
        by_cases hc : 0 < j.countdown
        · refine ⟨{ j with countdown := j.countdown - 1 }, ?_, hnp, rfl, rfl⟩
          simp [hc, alGet_alSet_self]
        · refine ⟨j, ?_, hnp, rfl, rfl⟩
          simp [hc, hj]
      · rw [if_neg hm]
        exact ⟨j, hj, hnp, rfl, rfl⟩
    | verif k₀ i cenv =>
      have hkk : k₀ = k := hk
      subst hkk
      simp only [step]
      unfold verifComplete
      split
      · exact ⟨j, hj, hnp, rfl, rfl⟩
      · next job hjob =>
          have hjj : some j = some job := hj.symm.trans hjob
          injection hjj with hjj'
          subst hjj'
          split
          · exact ⟨j, hj, hnp, rfl, rfl⟩
          · next item hi =>
              refine ⟨{ j with results := j.results.set i (runVerification cenv item) },
                ?_, hnp, rfl, ?_⟩
              · simp [alGet_alSet_self]
              · simp

theorem processEmail_processing (env : DispatchEnv) (s : MState) (k : String) (j : Job)
    (hj : alGet s.jobs k = some j) (hp : j.status = JobStatus.processing) :
    processEmail env s k =
      (scheduleNext { s with jobs := alSet s.jobs k (jobAfterDispatch env j) } k,
       launchOf env j) := by
  unfold processEmail
  rw [hj]
  simp [hp]

theorem scheduleNext_at (s : MState) (k : String) (j : Job)
    (hj : alGet s.jobs k = some j) :
    ∃ j', alGet (scheduleNext s k).jobs k = some j' ∧
      j'.results = j.results ∧ j'.currentIndex = j.currentIndex ∧
      j'.emails = j.emails ∧ j'.totalEmails = j.totalEmails ∧
      j'.formData = j.formData ∧ j'.error = j.error ∧
      (j'.status = j.status ∨ j'.status = JobStatus.completed) := by
  unfold scheduleNext
  rw [hj]
  by_cases hp : j.status = JobStatus.processing
  · by_cases hc : j.totalEmails ≤ j.currentIndex
    · refine ⟨{ j with status := JobStatus.completed }, ?_, rfl, rfl, rfl, rfl, rfl, rfl,
        Or.inr rfl⟩
      simp [hp, hc, clearTimers, alGet_alSet_self]
    · refine ⟨{ j with countdown := j.delay }, ?_, rfl, rfl, rfl, rfl, rfl, rfl, Or.inl rfl⟩
      simp [hp, hc, alGet_alSet_self]
  · exact ⟨j, by simp [hp, hj], rfl, rfl, rfl, rfl, rfl, rfl, Or.inl rfl⟩

/-- Fields of the result record and job that one dispatch leaves behind. -/
theorem jobAfterDispatch_fields (env : DispatchEnv) (j : Job) :
    (jobAfterDispatch env j).results = j.results ++ [resultOf env j] ∧
    (jobAfterDispatch env j).currentIndex = j.currentIndex + 1 ∧
    (jobAfterDispatch env j).totalEmails = j.totalEmails ∧
    (jobAfterDispatch env j).emails = j.emails ∧
    (jobAfterDispatch env j).formData = j.formData ∧
    ((dispatchCompute env j.formData).critical = none →
      (jobAfterDispatch env j).status = j.status ∧
      (jobAfterDispatch env j).error = j.error) ∧
    (∀ msg, (dispatchCompute env j.formData).critical = some msg →
      (jobAfterDispatch env j).status = JobStatus.failed ∧
      (jobAfterDispatch env j).error = some msg) := by
  unfold jobAfterDispatch
  cases hcr : (dispatchCompute env j.formData).critical with
  | none => simp [hcr]
  | some msg => simp [hcr]

/-- The invariant carried by every job record between events: results track
the cursor, `totalEmails` caches the item count, a `processing` job still
has an item to dispatch (or is the freshly-started empty job), and the
cursor exceeds the item count only through the empty job's single phantom
dispatch. -/
def JobInv (j : Job) : Prop :=
  j.results.length = j.currentIndex ∧
  j.totalEmails = j.emails.length ∧
  (j.status = JobStatus.processing →
    j.currentIndex < j.totalEmails ∨ (j.currentIndex = 0 ∧ j.totalEmails = 0)) ∧
  (j.currentIndex ≤ j.totalEmails ∨ (j.emails = [] ∧ j.currentIndex = 1))

/-- All records in the table satisfy the job invariant. -/
def StateInv (s : MState) : Prop :=
  ∀ k j, alGet s.jobs k = some j → JobInv j

theorem freshJob_inv (accountId : String) (emails : List String) (delay : Nat)
    (fd : FormData) (platform : Platform) :
    JobInv (freshJob accountId emails delay fd platform) := by
  refine ⟨rfl, rfl, ?_, Or.inl (Nat.zero_le _)⟩
  intro _
  rcases Nat.eq_zero_or_pos emails.length with h | h
  · exact Or.inr ⟨rfl, h⟩
  · exact Or.inl h

theorem scheduleNext_inv (s : MState) (k : String)
    (hOther : ∀ k' j, k' ≠ k → alGet s.jobs k' = some j → JobInv j)
    (hAt : ∀ j, alGet s.jobs k = some j →
      (j.results.length = j.currentIndex ∧ j.totalEmails = j.emails.length ∧
       (j.currentIndex ≤ j.totalEmails ∨ (j.emails = [] ∧ j.currentIndex = 1)) ∧
       (j.status ≠ JobStatus.processing → JobInv j))) :
    StateInv (scheduleNext s k) := by
  intro k2 j2 hj2
  by_cases hk2 : k2 = k
  case neg =>
    rw [scheduleNext_jobs_ne s k k2 (fun hc => hk2 hc.symm)] at hj2
    exact hOther k2 j2 hk2 hj2
  case pos =>
    subst hk2
    unfold scheduleNext at hj2
    cases hj : alGet s.jobs k2 with
    | none =>
      rw [hj] at hj2
      exact absurd (hj.symm.trans hj2) (by simp)
    | some job =>
      rw [hj] at hj2
      obtain ⟨hlen, htot, hbound, hnp⟩ := hAt job hj
      by_cases hp : job.status = JobStatus.processing
      · by_cases hc : job.totalEmails ≤ job.currentIndex
        · simp [hp, hc, clearTimers, alGet_alSet_self] at hj2
          subst hj2
          refine ⟨hlen, htot, ?_, hbound⟩
          intro hcon
          cases hcon
        · simp [hp, hc, alGet_alSet_self] at hj2
          subst hj2
          refine ⟨hlen, htot, ?_, hbound⟩
          intro _
          exact Or.inl (Nat.lt_of_not_le hc)
      · simp [hp] at hj2
        rw [hj] at hj2
        injection hj2 with hj2'
        subst hj2'
        exact hnp hp

theorem processEmail_inv (env : DispatchEnv) (s : MState) (k : String)
    (h : StateInv s) : StateInv (processEmail env s k).1 := by
  cases hj : alGet s.jobs k with
  | none =>
    rw [processEmail_none env s k hj]
    exact h
  | some job =>
    by_cases hp : job.status = JobStatus.processing
    · rw [processEmail_processing env s k job hj hp]
      apply scheduleNext_inv
      · intro k' j' hk' hj'
        rw [alGet_alSet_ne _ _ _ _ (fun hc => hk' hc.symm)] at hj'
        exact h k' j' hj'
      · intro j' hj'
        rw [alGet_alSet_self] at hj'
        have hj'eq : jobAfterDispatch env job = j' := by simpa using hj'
        subst hj'eq
        obtain ⟨hres, hidx, htot, hemails, hfd, hnc, hcrit⟩ :=
          jobAfterDispatch_fields env job
        obtain ⟨hlen, htot0, hstrict, hbound⟩ := h k job hj
        have hstep : job.currentIndex < job.totalEmails ∨
            (job.currentIndex = 0 ∧ job.totalEmails = 0) := hstrict hp
        refine ⟨?_, ?_, ?_, ?_⟩
        · rw [hres, hidx, List.length_append, hlen]
          rfl
        · rw [htot, hemails, htot0]
        · rw [hidx, htot]
          rcases hstep with hlt | ⟨h0, ht0⟩
          · exact Or.inl (Nat.succ_le_of_lt hlt)
          · refine Or.inr ⟨?_, ?_⟩
            · rw [hemails]
              have : job.emails.length = 0 := by rw [← htot0]; exact ht0
              exact List.length_eq_zero.mp this
            · rw [h0]
        · intro hnps
          refine ⟨?_, ?_, ?_, ?_⟩
          · rw [hres, hidx, List.length_append, hlen]
            rfl
          · rw [htot, hemails, htot0]
          · intro hps
            exact absurd hps hnps
          · rw [hidx, htot]
            rcases hstep with hlt | ⟨h0, ht0⟩
            · exact Or.inl (Nat.succ_le_of_lt hlt)
            · refine Or.inr ⟨?_, by rw [h0]⟩
              rw [hemails]
              have : job.emails.length = 0 := by rw [← htot0]; exact ht0
              exact List.length_eq_zero.mp this
    · rw [(processEmail_notProcessing env s k job hj hp : processEmail env s k = (s, none))]
      exact h

theorem step_inv (s : MState) (op : Op) (h : StateInv s) : StateInv (step s op) := by
  cases op with
  | start acc plat emails delay fd env =>
    have hfresh : StateInv
        { s with jobs := alSet s.jobs (getJobKey plat acc) (freshJob acc emails delay fd plat) } := by
      intro k2 j2 hj2
      by_cases hk : k2 = getJobKey plat acc
      · subst hk
        simp [alGet_alSet_self] at hj2
        subst hj2
        exact freshJob_inv acc emails delay fd plat
      · simp [alGet_alSet_ne _ _ _ _ (fun hc => hk hc.symm)] at hj2
        exact h _ _ hj2
    simp only [step, startJob]
    split
    · next j hj =>
        split
        · exact h
        · exact processEmail_inv env _ _ hfresh
    · exact processEmail_inv env _ _ hfresh
  | stop acc plat =>
    simp only [step, stopJob]
    split
    · exact h
    · next j hj =>
        intro k2 j2 hj2
        by_cases hk : k2 = getJobKey plat acc
        · subst hk
          simp [clearTimers, alGet_alSet_self] at hj2
          subst hj2
          obtain ⟨hlen, htot, hstrict, hbound⟩ := h _ _ hj
          refine ⟨hlen, htot, ?_, hbound⟩
          intro hcon
          cases hcon
        · simp [clearTimers, alGet_alSet_ne _ _ _ _ (fun hc => hk hc.symm)] at hj2
          exact h _ _ hj2
  | pause acc plat =>
    simp only [step, pauseJob]
    split
    · exact h
    · next j hj =>
        split
        · intro k2 j2 hj2
          by_cases hk : k2 = getJobKey plat acc
          · subst hk
            simp [clearTimers, alGet_alSet_self] at hj2
            subst hj2
            obtain ⟨hlen, htot, hstrict, hbound⟩ := h _ _ hj
            refine ⟨hlen, htot, ?_, hbound⟩
            intro hcon
            cases hcon
          · simp [clearTimers, alGet_alSet_ne _ _ _ _ (fun hc => hk hc.symm)] at hj2
            exact h _ _ hj2
        · exact h
  | resume acc plat =>
    simp only [step, resumeJob]
    split
    · exact h
    · next j hj =>
        split
        · next hp =>
            apply scheduleNext_inv
            · intro k' j' hk' hj'
              simp [alGet_alSet_ne _ _ _ _ (fun hc => hk' hc.symm)] at hj'
              exact h _ _ hj'
            · intro j' hj'
              simp [alGet_alSet_self] at hj'
              subst hj'
              obtain ⟨hlen, htot, hstrict, hbound⟩ := h _ _ hj
              refine ⟨hlen, htot, hbound, ?_⟩
              intro hnps
              exact absurd rfl hnps
        · exact h
  | timer k₀ env =>
    simp only [step]
    unfold fireTimer
    split
    · exact processEmail_inv env _ k₀ h
    · exact h
  | tick k₀ =>
    simp only [step]
    unfold tickSecond
    split
    · split
      · exact h
      · next j hj =>
          split
          · intro k2 j2 hj2
            by_cases hk : k2 = k₀
            · subst hk
              simp [alGet_alSet_self] at hj2
              subst hj2
              obtain ⟨hlen, htot, hstrict, hbound⟩ := h _ _ hj
              exact ⟨hlen, htot, hstrict, hbound⟩
            · simp [alGet_alSet_ne _ _ _ _ (fun hc2 => hk hc2.symm)] at hj2
              exact h _ _ hj2
          · exact h
    · exact h
  | verif k₀ i cenv =>
    simp only [step]
    unfold verifComplete
    split
    · exact h
    · next job hjob =>
        split
        · exact h
        · next item hi =>
            intro k2 j2 hj2
            by_cases hk : k2 = k₀
            · subst hk
              simp [alGet_alSet_self] at hj2
              subst hj2
              obtain ⟨hlen, htot, hstrict, hbound⟩ := h _ _ hjob
              refine ⟨?_, htot, hstrict, hbound⟩
              simp [List.length_set, hlen]
            · simp [alGet_alSet_ne _ _ _ _ (fun hc => hk hc.symm)] at hj2
              exact h _ _ hj2

theorem run_inv : ∀ (ops : List Op) (s : MState), StateInv s → StateInv (run s ops) := by
  intro ops
  induction ops with
  | nil => intro s h; exact h
  | cons op ops ih => intro s h; exact ih (step s op) (step_inv s op h)

theorem initState_inv : StateInv initState := by
  intro k j h
  exact Option.noConfusion h

theorem notProcessing_frozen_run (k : String) :
    ∀ (ops : List Op) (s : MState) (j : Job),
      alGet s.jobs k = some j → j.status ≠ JobStatus.processing →
      (∀ op ∈ ops, op.startsKey k = false ∧ op.resumesKey k = false) →
      ∃ j', alGet (run s ops).jobs k = some j' ∧ j'.status ≠ JobStatus.processing ∧
        j'.currentIndex = j.currentIndex ∧ j'.results.length = j.results.length := by
  intro ops
  induction ops with
  | nil =>
    intro s j hj hnp _
    exact ⟨j, hj, hnp, rfl, rfl⟩
  | cons op ops ih =>
    intro s j hj hnp hav
    obtain ⟨h1, h2⟩ := hav op (List.mem_cons_self _ _)
    obtain ⟨j1, hj1, hnp1, hc1, hr1⟩ := notProcessing_frozen_step s k j op hj hnp h1 h2
    obtain ⟨j2, hj2, hnp2, hc2, hr2⟩ :=
      ih (step s op) j1 hj1 hnp1 (fun o ho => hav o (List.mem_cons_of_mem _ ho))
    exact ⟨j2, hj2, hnp2, hc2.trans hc1, hr2.trans hr1⟩

theorem not_mem_filter_ne (l : List String) (k : String) :
    k ∉ l.filter (fun x => x != k) := by
  intro hmem
  have := List.of_mem_filter hmem
  simp at this

theorem pauseJob_notProcessing (s : MState) (acc : String) (plat : Platform) (j : Job)
    (hj : alGet s.jobs (getJobKey plat acc) = some j)
    (hp : j.status ≠ JobStatus.processing) :
    pauseJob s acc plat = clearTimers s (getJobKey plat acc) := by
  simp only [pauseJob]
  split
  · rfl
  · next job hjob =>
      split
      · next hps =>
          exfalso
          have hh : some j = some job := hj.symm.trans hjob
          injection hh with hh
          subst hh
          exact hp hps
      · rfl

theorem resumeJob_notPaused (s : MState) (acc : String) (plat : Platform) (j : Job)
    (hj : alGet s.jobs (getJobKey plat acc) = some j)
    (hp : j.status ≠ JobStatus.paused) :
    resumeJob s acc plat = s := by
  simp only [resumeJob]
  split
  · rfl
  · next job hjob =>
      split
      · next hps =>
          exfalso
          have hh : some j = some job := hj.symm.trans hjob
          injection hh with hh
          subst hh
          exact hp hps
      · rfl

theorem stopJob_found (s : MState) (acc : String) (plat : Platform) (j : Job)
    (hj : alGet s.jobs (getJobKey plat acc) = some j) :
    alGet (stopJob s acc plat).jobs (getJobKey plat acc) =
      some { j with status := JobStatus.stopped } := by
  simp only [stopJob]
  split
  · next hnone =>
      exact absurd (hj.symm.trans hnone) (by simp)
  · next job hjob =>
      have hh : some j = some job := hj.symm.trans hjob
      injection hh with hh
      subst hh
      simp [clearTimers, alGet_alSet_self]

theorem pauseJob_processing (s : MState) (acc : String) (plat : Platform) (j : Job)
    (hj : alGet s.jobs (getJobKey plat acc) = some j)
    (hp : j.status = JobStatus.processing) :
    alGet (pauseJob s acc plat).jobs (getJobKey plat acc) =
      some { j with status := JobStatus.paused } ∧
    getJobKey plat acc ∉ (pauseJob s acc plat).timers ∧
    getJobKey plat acc ∉ (pauseJob s acc plat).tickers := by
  simp only [pauseJob]
  split
  · next hnone =>
      exact absurd (hj.symm.trans hnone) (by simp)
  · next job hjob =>
      have hh : some j = some job := hj.symm.trans hjob
      injection hh with hh
      subst hh
      split
      · refine ⟨?_, ?_, ?_⟩
        · simp [clearTimers, alGet_alSet_self]
        · exact not_mem_filter_ne s.timers (getJobKey plat acc)
        · exact not_mem_filter_ne s.tickers (getJobKey plat acc)
      · next hps => exact absurd hp hps

/-- The dispatch outcome when the account lookup fails: the outer `try`
throws before either stage runs. -/
theorem dispatch_accountMissing (env : DispatchEnv) (fd : FormData)
    (h : env.accountFound = false) :
    dispatchCompute env fd =
      { contactStatus := CStatus.failed, emailStatus := EStatus.skipped,
        contactId := none, sendTarget := none,
        critical := some "Account not found." } := by
  unfold dispatchCompute
  rw [h]
  simp

/-- The verification task touches only `liveStatus` and the live capture of
the record it holds. -/
theorem runVerification_identity (cenv : CheckEnv) (item : ResultItem) :
    (runVerification cenv item).email = item.email ∧
    (runVerification cenv item).contactStatus = item.contactStatus ∧
    (runVerification cenv item).emailStatus = item.emailStatus := by
  cases cenv with
  | accountMissing => exact ⟨rfl, rfl, rfl⟩
  | exn msg => exact ⟨rfl, rfl, rfl⟩
  | ok resp =>
    cases hre : resp.entries with
    | nil => simp [runVerification, hre]
    | cons latest rest => simp [runVerification, hre]

/-- Form data with sending enabled and a matching from-address. -/
def fdSend : FormData :=
  { sendEmail := true, checkStatus := false, checkDelay := none,
    fromAddresses := [{ user_name := "Sender", email := "from@x.com" }],
    fromEmail := "from@x.com", lastName := "Doe" }

/-- Form data with live-status checking enabled, sending disabled. -/
def fdCheck : FormData :=
  { sendEmail := false, checkStatus := true, checkDelay := some 2,
    fromAddresses := [], fromEmail := "", lastName := "Doe" }

/-- A create-stage response that is neither a success nor a duplicate. -/
def envCreateFail : DispatchEnv :=
  { accountFound := true, tokenOk := true,
    contactCall := ContactCall.ok
      { status := "error", code := "MANDATORY_NOT_FOUND", id := "" },
    emailCall := EmailCall.ok "success" }

/-- A duplicate-contact create-stage response carrying the id `"123"` of
the pre-existing record. -/
def envDup : DispatchEnv :=
  { accountFound := true, tokenOk := true,
    contactCall := ContactCall.ok
      { status := "error", code := "DUPLICATE_DATA", id := "123" },
    emailCall := EmailCall.ok "success" }

/-- An environment where the account lookup fails. -/
def envNoAccount : DispatchEnv :=
  { okEnv with accountFound := false }

/-- A two-item job record in `processing` state under key `"crm-3"`. -/
def jC7 : Job := freshJob "3" ["a@b.c", "d@e.f"] 5 fdPlain Platform.crm

/-- A manager holding `jC7` with its pacing timer and ticker armed. -/
def sC7 : MState :=
  { jobs := [("crm-3", jC7)], timers := ["crm-3"], tickers := ["crm-3"] }

/-- A one-item `processing` job under key `"crm-9"`, not yet dispatched. -/
def jC2 : Job := freshJob "9" ["x@a.com"] 5 fdPlain Platform.crm

/-- A manager holding only `jC2`. -/
def sC2 : MState := { jobs := [("crm-9", jC2)], timers := [], tickers := [] }

/-- C1, counterexample: a one-item job completes; calling `stop` on the
`Completed` record changes its status to `Stopped`, so a terminal status
is not preserved by `stop` — contradicting the claim that no operation
other than a fresh `start` changes a terminal job's status. -/
theorem C1_counterexample :
    ((alGet (run initState [Op.start "1" Platform.crm ["x@a.com"] 0 fdPlain okEnv]).jobs
      "crm-1").map Job.status = some JobStatus.completed) ∧
    ((alGet (run initState [Op.start "1" Platform.crm ["x@a.com"] 0 fdPlain okEnv,
      Op.stop "1" Platform.crm]).jobs "crm-1").map Job.status =
        some JobStatus.stopped) := by
  decide

/-- C1 (amended): once a job's status is terminal (`Completed`, `Failed`
or `Stopped`), no sequence of scheduler events other than a fresh `start`
for its key or a verification-task completion changes its cursor or its
results, and its status stays terminal — unchanged except that `stop` may
replace `Completed`/`Failed` by `Stopped`; in particular `pause` and
`resume` leave the record unchanged and `stop` changes only the status
field. -/
theorem C1_terminal_stability :
    (∀ (s : MState) (k : String) (j : Job) (ops : List Op),
      alGet s.jobs k = some j → Terminal j.status →
      (∀ op ∈ ops, op.startsKey k = false ∧ op.verifsKey k = false) →
      ∃ j', alGet (run s ops).jobs k = some j' ∧ Terminal j'.status ∧
        (j'.status = j.status ∨ j'.status = JobStatus.stopped) ∧
        j'.currentIndex = j.currentIndex ∧ j'.results = j.results) ∧
    (∀ (s : MState) (acc : String) (plat : Platform) (j : Job),
      alGet s.jobs (getJobKey plat acc) = some j → Terminal j.status →
      alGet (pauseJob s acc plat).jobs (getJobKey plat acc) = some j ∧
      alGet (resumeJob s acc plat).jobs (getJobKey plat acc) = some j ∧
      alGet (stopJob s acc plat).jobs (getJobKey plat acc) =
        some { j with status := JobStatus.stopped }) := by
  constructor
  · intro s k j ops hj ht hav
    exact terminal_frozen_run k ops s j hj ht hav
  · intro s acc plat j hj ht
    refine ⟨?_, ?_, stopJob_found s acc plat j hj⟩
    · rw [pauseJob_notProcessing s acc plat j hj ht.ne_processing]
      exact hj
    · rw [resumeJob_notPaused s acc plat j hj ht.ne_paused]
      exact hj

/-- A completed one-item job record under key `"crm-1"`. -/
def jDone : Job :=
  { accountId := "1", emails := ["x@a.com"],
    results := [{ email := some "x@a.com", contactStatus := CStatus.success,
                  emailStatus := EStatus.skipped, liveStatus := "Skipped",
                  liveResp := none }],
    status := JobStatus.completed, currentIndex := 1, totalEmails := 1,
    delay := 0, formData := fdPlain, error := none, countdown := 0,
    platform := Platform.crm }

/-- A manager holding only `jDone`. -/
def sDone : MState := { jobs := [("crm-1", jDone)], timers := [], tickers := [] }

/-- C1, witness for the amended theorem: a completed record survives a
pause and a tick with cursor, results and terminal status intact. -/
theorem C1_terminal_stability_witness :
    ∃ j', alGet (run sDone [Op.pause "1" Platform.crm, Op.tick "crm-1"]).jobs
        "crm-1" = some j' ∧ Terminal j'.status ∧
      (j'.status = jDone.status ∨ j'.status = JobStatus.stopped) ∧
      j'.currentIndex = jDone.currentIndex ∧ j'.results = jDone.results :=
  C1_terminal_stability.1 sDone "crm-1" jDone
    [Op.pause "1" Platform.crm, Op.tick "crm-1"]
    (by decide) (by decide) (by decide)

/-- C6, counterexample: starting a job with an empty items list still
dispatches one phantom item — the final record has `cursor = 1`,
`len(items) = 0`, `len(results) = 1`, violating `cursor <= len(items)`. -/
theorem C6_counterexample :
    (alGet (run initState [Op.start "7" Platform.crm [] 0 fdPlain okEnv]).jobs
      "crm-7").map (fun j => (j.currentIndex, j.emails.length, j.results.length)) =
      some (1, 0, 1) := by
  decide

/-- C6 (amended): at every observation point between events,
`len(results) == cursor` holds for every job, and `cursor <= len(items)`
holds for every job started with a nonempty items list; a job started with
an empty list performs one phantom dispatch and ends with
`cursor = len(results) = 1 > 0 = len(items)`. -/
theorem C6_cursor_results (ops : List Op) (k : String) (j : Job)
    (hj : alGet (run initState ops).jobs k = some j) :
    j.results.length = j.currentIndex ∧
    (j.emails ≠ [] → j.currentIndex ≤ j.emails.length) := by
  obtain ⟨hlen, htot, hstrict, hbound⟩ := run_inv ops initState initState_inv k j hj
  refine ⟨hlen, ?_⟩
  intro hne
  rcases hbound with hle | ⟨hnil, _⟩
  · rw [htot] at hle
    exact hle
  · exact absurd hnil hne

/-- C6, witness: the invariant instantiated on a concrete one-item run. -/
theorem C6_cursor_results_witness :
    ∃ j, alGet (run initState [Op.start "1" Platform.crm ["x@a.com"] 0 fdPlain okEnv]).jobs
        "crm-1" = some j ∧
      j.results.length = j.currentIndex ∧
      (j.emails ≠ [] → j.currentIndex ≤ j.emails.length) := by
  cases hj : alGet (run initState
      [Op.start "1" Platform.crm ["x@a.com"] 0 fdPlain okEnv]).jobs "crm-1" with
  | none => exact absurd hj (by decide)
  | some j =>
    exact ⟨j, rfl, C6_cursor_results [Op.start "1" Platform.crm ["x@a.com"] 0 fdPlain okEnv]
      "crm-1" j hj⟩

/-- C7: `start` on a key whose record is `processing` is a complete no-op:
the manager state (job table and timer tables alike) is returned
unchanged, so a second `start` cannot reset the cursor or clear results. -/
theorem C7_start_noop_processing (env : DispatchEnv) (s : MState) (acc : String)
    (plat : Platform) (emails : List String) (delay : Nat) (fd : FormData) (j : Job)
    (hj : alGet s.jobs (getJobKey plat acc) = some j)
    (hp : j.status = JobStatus.processing) :
    startJob env s acc emails delay fd plat = s := by
  simp only [startJob]
  split
  · next j0 hj0 =>
      split
      · rfl
      · next hps =>
          exfalso
          have hh : some j = some j0 := hj.symm.trans hj0
          injection hh with hh
          subst hh
          exact hps hp
  · next hnone =>
      exact absurd (hj.symm.trans hnone) (by simp)

/-- C7, witness: restarting key `"crm-3"` while it is processing returns
the state unchanged. -/
theorem C7_start_noop_processing_witness :
    startJob okEnv sC7 "3" ["z@z.z"] 9 fdPlain Platform.crm = sC7 :=
  C7_start_noop_processing okEnv sC7 "3" Platform.crm ["z@z.z"] 9 fdPlain jC7
    (by decide) (by decide)

/-- C10: `pause`, `resume` and `stop` on a key with no record leave the
job table exactly as it was — no record is created and no record under
any other key is touched (the operations are total functions; nothing is
thrown). -/
theorem C10_missing_key (s : MState) (acc : String) (plat : Platform)
    (h : alGet s.jobs (getJobKey plat acc) = none) :
    (pauseJob s acc plat).jobs = s.jobs ∧
    (resumeJob s acc plat).jobs = s.jobs ∧
    (stopJob s acc plat).jobs = s.jobs := by
  refine ⟨?_, ?_, ?_⟩
  · simp only [pauseJob]
    split
    · rfl
    · next job hjob =>
        exact absurd (h.symm.trans hjob) (by simp)
  · simp only [resumeJob]
    split
    · rfl
    · next job hjob =>
        exact absurd (h.symm.trans hjob) (by simp)
  · simp only [stopJob]
    split
    · rfl
    · next job hjob =>
        exact absurd (h.symm.trans hjob) (by simp)

/-- C10, witness: the three operations on the absent key `"bigin-99"`. -/
theorem C10_missing_key_witness :
    (pauseJob sC7 "99" Platform.bigin).jobs = sC7.jobs ∧
    (resumeJob sC7 "99" Platform.bigin).jobs = sC7.jobs ∧
    (stopJob sC7 "99" Platform.bigin).jobs = sC7.jobs :=
  C10_missing_key sC7 "99" Platform.bigin (by decide)

/-- C2, counterexample: dispatching with a failing account lookup does set
`status = Failed` and `lastError`, but — contrary to the claim — the
`finally` block still appends a result record for the item (the results
list grows from 0 to 1). -/
theorem C2_counterexample :
    ((alGet (processEmail envNoAccount sC2 "crm-9").1.jobs "crm-9").map Job.status =
      some JobStatus.failed) ∧
    ((alGet (processEmail envNoAccount sC2 "crm-9").1.jobs "crm-9").map
      (fun j => j.results.length) = some 1) := by
  decide

/-- C2 (amended): when the account lookup fails during a dispatch, the job
transitions to `Failed` with `lastError` set and no later event (short of
a fresh `start` or a verification completion for the key) advances the
cursor or changes the results — but a result record for the aborted item
IS appended, with create stage `Failed` and send stage `Skipped`, and the
cursor is incremented past it. -/
theorem C2_account_failure (env : DispatchEnv) (s : MState) (k : String) (j : Job)
    (hj : alGet s.jobs k = some j) (hp : j.status = JobStatus.processing)
    (hacc : env.accountFound = false) :
    ∃ j', alGet (processEmail env s k).1.jobs k = some j' ∧
      j'.status = JobStatus.failed ∧
      j'.error = some "Account not found." ∧
      j'.results = j.results ++ [resultOf env j] ∧
      (resultOf env j).contactStatus = CStatus.failed ∧
      (resultOf env j).emailStatus = EStatus.skipped ∧
      j'.currentIndex = j.currentIndex + 1 ∧
      (∀ ops, (∀ op ∈ ops, op.startsKey k = false ∧ op.verifsKey k = false) →
        ∃ j2, alGet (run (processEmail env s k).1 ops).jobs k = some j2 ∧
          j2.currentIndex = j.currentIndex + 1 ∧
          j2.results = j.results ++ [resultOf env j] ∧
          Terminal j2.status) := by
  obtain ⟨hres, hidx, htot, hemails, hfd, hnc, hcrit⟩ := jobAfterDispatch_fields env j
  have hcr : (dispatchCompute env j.formData).critical = some "Account not found." := by
    rw [dispatch_accountMissing env j.formData hacc]
  obtain ⟨hst, herr⟩ := hcrit _ hcr
  rw [processEmail_processing env s k j hj hp]
  have hs1 : alGet
      ({ s with jobs := alSet s.jobs k (jobAfterDispatch env j) } : MState).jobs k =
      some (jobAfterDispatch env j) := by
    simp [alGet_alSet_self]
  rw [scheduleNext_notProcessing _ _ _ hs1 (by rw [hst]; intro hcon; cases hcon)]
  refine ⟨jobAfterDispatch env j, hs1, hst, herr, hres, ?_, ?_, hidx, ?_⟩
  · simp [resultOf, dispatch_accountMissing env j.formData hacc]
  · simp [resultOf, dispatch_accountMissing env j.formData hacc]
  · intro ops hav
    obtain ⟨j2, hj2, ht2, _, hc2, hr2⟩ :=
      terminal_frozen_run k ops _ (jobAfterDispatch env j) hs1
        (Or.inr (Or.inr hst)) hav
    exact ⟨j2, hj2, by rw [hc2, hidx], by rw [hr2, hres], ht2⟩

/-- C2, witness: the amended behaviour on the concrete one-item job. -/
theorem C2_account_failure_witness :
    ∃ j', alGet (processEmail envNoAccount sC2 "crm-9").1.jobs "crm-9" = some j' ∧
      j'.status = JobStatus.failed ∧
      j'.error = some "Account not found." ∧
      j'.results = jC2.results ++ [resultOf envNoAccount jC2] ∧
      (resultOf envNoAccount jC2).contactStatus = CStatus.failed ∧
      (resultOf envNoAccount jC2).emailStatus = EStatus.skipped ∧
      j'.currentIndex = jC2.currentIndex + 1 ∧
      (∀ ops, (∀ op ∈ ops, op.startsKey "crm-9" = false ∧ op.verifsKey "crm-9" = false) →
        ∃ j2, alGet (run (processEmail envNoAccount sC2 "crm-9").1 ops).jobs "crm-9" =
            some j2 ∧
          j2.currentIndex = jC2.currentIndex + 1 ∧
          j2.results = jC2.results ++ [resultOf envNoAccount jC2] ∧
          Terminal j2.status) :=
  C2_account_failure envNoAccount sC2 "crm-9" jC2 (by decide) (by decide) (by decide)

/-- C3, counterexample: with `sendEmail = true` and a create stage that
captures no entity id, the send-stage outcome is `Skipped` (the initial
value is retained — the source has no `else` branch for this case), not
`Failed` as the claim states; this also refutes "Skipped exactly when
`sendEmail` is false". -/
theorem C3_counterexample :
    fdSend.sendEmail = true ∧
    (dispatchCompute envCreateFail fdSend).contactId = none ∧
    (dispatchCompute envCreateFail fdSend).emailStatus = EStatus.skipped := by
  decide

/-- C3 (amended): the send-stage outcome is `Skipped` exactly when
`sendEmail` is false OR no entity id was captured (including every
critical-error path); when `sendEmail` is true and an id was captured the
outcome is `Success` precisely for a `success` send response and `Failed`
otherwise; and a missing matching from-address with `sendEmail = true` is
job-fatal (`lastError = "From address not found"`) with the item's send
stage recorded `Skipped`, not a per-item `Failed`. -/
theorem C3_send_outcome (env : DispatchEnv) (fd : FormData) :
    ((dispatchCompute env fd).emailStatus = EStatus.skipped ↔
      ¬(fd.sendEmail = true ∧ (dispatchCompute env fd).contactId.isSome = true)) ∧
    (fd.sendEmail = true → (dispatchCompute env fd).contactId.isSome = true →
      ((dispatchCompute env fd).emailStatus = EStatus.success ↔
        env.emailCall = EmailCall.ok "success")) ∧
    (env.accountFound = true → env.tokenOk = true → fd.sendEmail = true →
      fd.fromAddresses.find? (fun a => a.email == fd.fromEmail) = none →
      (dispatchCompute env fd).critical = some "From address not found" ∧
      (dispatchCompute env fd).emailStatus = EStatus.skipped) := by
  unfold dispatchCompute
  cases haf : env.accountFound with
  | false => simp [haf]
  | true =>
    cases htk : env.tokenOk with
    | false => simp [haf, htk]
    | true =>
      cases hfa : fd.fromAddresses.find? (fun a => a.email == fd.fromEmail) with
      | none =>
        cases hse : fd.sendEmail with
        | false =>
          cases hcc : env.contactCall with
          | thrown msg => simp [haf, htk, hfa, hse, hcc]
          | ok e =>
            by_cases hok : (e.status == "success" || e.code == "DUPLICATE_DATA") = true
            · simp [haf, htk, hfa, hse, hcc, hok]
            · simp [haf, htk, hfa, hse, hcc, hok]
        | true => simp [haf, htk, hfa, hse]
      | some fa =>
        cases hse : fd.sendEmail with
        | false =>
          cases hcc : env.contactCall with
          | thrown msg => simp [haf, htk, hfa, hse, hcc]
          | ok e =>
            by_cases hok : (e.status == "success" || e.code == "DUPLICATE_DATA") = true
            · simp [haf, htk, hfa, hse, hcc, hok]
            · simp [haf, htk, hfa, hse, hcc, hok]
        | true =>
          cases hcc : env.contactCall with
          | thrown msg => simp [haf, htk, hfa, hse, hcc]
          | ok e =>
            by_cases hok : (e.status == "success" || e.code == "DUPLICATE_DATA") = true
            · cases hec : env.emailCall with
              | thrown m => simp [haf, htk, hfa, hse, hcc, hok, hec]
              | ok st =>
                by_cases hst : (st == "success") = true
                · simp only [beq_iff_eq] at hst
                  simp [haf, htk, hfa, hse, hcc, hok, hec, hst]
                · simp only [beq_iff_eq] at hst
                  simp [haf, htk, hfa, hse, hcc, hok, hec, hst]
            · simp [haf, htk, hfa, hse, hcc, hok]

/-- C3, witness: the amended characterisation instantiated on the
no-entity-id dispatch. -/
theorem C3_send_outcome_witness :
    (dispatchCompute envCreateFail fdSend).emailStatus = EStatus.skipped :=
  (C3_send_outcome envCreateFail fdSend).1.mpr (by decide)

/-- C4, counterexample: the duplicate-code response produces exactly the
same create-stage outcome value as an ordinary success response — plain
`Success`; the outcome type of the source has no distinguished `Duplicate`
variant, so no result distinct from plain `Success` is recorded. -/
theorem C4_counterexample :
    (dispatchCompute envDup fdSend).contactStatus =
      (dispatchCompute okEnv fdSend).contactStatus ∧
    (dispatchCompute envDup fdSend).contactStatus = CStatus.success ∧
    (dispatchCompute envDup fdSend).contactId = some "123" := by
  decide

/-- C4 (amended): a create-stage response carrying code `DUPLICATE_DATA`
is folded into plain `Success` (the source's outcome type is only
`'Success' | 'Failed'`, with no `Duplicate` variant), and the pre-existing
entity's id is extracted from the error payload and is the id the send
stage posts to when `sendEmail` is true. -/
theorem C4_duplicate_handling (env : DispatchEnv) (fd : FormData) (e : ContactEntry)
    (hacc : env.accountFound = true) (htok : env.tokenOk = true)
    (hfrom : (fd.fromAddresses.find? (fun a => a.email == fd.fromEmail)).isSome = true)
    (hcc : env.contactCall = ContactCall.ok e) (hdup : e.code = "DUPLICATE_DATA") :
    (dispatchCompute env fd).contactStatus = CStatus.success ∧
    (dispatchCompute env fd).contactId = some e.id ∧
    (fd.sendEmail = true → (dispatchCompute env fd).sendTarget = some e.id) := by
  unfold dispatchCompute
  cases hfa : fd.fromAddresses.find? (fun a => a.email == fd.fromEmail) with
  | none =>
    rw [hfa] at hfrom
    simp at hfrom
  | some fa =>
    cases hse : fd.sendEmail with
    | false => simp [hacc, htok, hfa, hse, hcc, hdup]
    | true =>
      cases hec : env.emailCall with
      | thrown m => simp [hacc, htok, hfa, hse, hcc, hdup, hec]
      | ok st => simp [hacc, htok, hfa, hse, hcc, hdup, hec]

/-- C4, witness: the duplicate response with id `"123"` under a
send-enabled form. -/
theorem C4_duplicate_handling_witness :
    (dispatchCompute envDup fdSend).contactStatus = CStatus.success ∧
    (dispatchCompute envDup fdSend).contactId = some "123" ∧
    (fdSend.sendEmail = true → (dispatchCompute envDup fdSend).sendTarget = some "123") :=
  C4_duplicate_handling envDup fdSend
    { status := "error", code := "DUPLICATE_DATA", id := "123" }
    (by decide) (by decide) (by decide) (by decide) (by decide)

/-- A one-item `processing` job with live-status checking requested. -/
def jC5 : Job := freshJob "5" ["x@a.com"] 0 fdCheck Platform.crm

/-- A manager holding only `jC5`. -/
def sC5 : MState := { jobs := [("crm-5", jC5)], timers := [], tickers := [] }

/-- C5, counterexample: with `checkStatus = true` but no entity id
captured (create stage failed), the appended record's `liveStatus` is
still initialised to `Pending` (the source tests only
`formData.checkStatus`), while no verification task is launched — so
`liveStatus = Pending` neither requires an entity id nor coincides with a
task launch. -/
theorem C5_counterexample :
    fdCheck.checkStatus = true ∧
    (dispatchCompute envCreateFail fdCheck).contactId = none ∧
    ((alGet (processEmail envCreateFail sC5 "crm-5").1.jobs "crm-5").map
      (fun j => j.results.map ResultItem.liveStatus)) = some ["Pending"] ∧
    (processEmail envCreateFail sC5 "crm-5").2 = none := by
  decide

/-- C5 (amended): the appended record's `liveStatus` is initialised to
`Pending` iff `formData.checkStatus` is true — independently of whether an
entity id was captured (`NotRequested` is rendered `"Skipped"`); a
verification task is launched exactly when `checkStatus` is true AND an
entity id was captured, i.e. strictly less often than `Pending` is
written. -/
theorem C5_pending_launch (env : DispatchEnv) (s : MState) (k : String) (j : Job)
    (hj : alGet s.jobs k = some j) (hp : j.status = JobStatus.processing) :
    ((resultOf env j).liveStatus = "Pending" ↔ j.formData.checkStatus = true) ∧
    ((processEmail env s k).2 = launchOf env j) ∧
    ((launchOf env j).isSome = true ↔
      (j.formData.checkStatus = true ∧
       (dispatchCompute env j.formData).contactId.isSome = true)) ∧
    (∃ j', alGet (processEmail env s k).1.jobs k = some j' ∧
      j'.results = j.results ++ [resultOf env j]) := by
  refine ⟨?_, ?_, ?_, ?_⟩
  · cases hcs : j.formData.checkStatus with
    | true => simp [resultOf, hcs]
    | false =>
      constructor
      · intro hcon
        have hsp : ("Skipped" : String) = "Pending" := by
          rw [resultOf] at hcon
          simp only [hcs, if_false, Bool.false_eq_true] at hcon
          exact hcon
        exact absurd hsp (by decide)
      · intro hcon
        exact Bool.noConfusion hcon
  · rw [processEmail_processing env s k j hj hp]
  · unfold launchOf
    cases hcs : j.formData.checkStatus with
    | false => simp [hcs]
    | true =>
      cases hcid : (dispatchCompute env j.formData).contactId with
      | none => simp [hcs, hcid]
      | some cid => simp [hcs, hcid]
  · rw [processEmail_processing env s k j hj hp]
    obtain ⟨hres, _, _, _, _, _, _⟩ := jobAfterDispatch_fields env j
    obtain ⟨j', hj', hres', _, _, _, _, _, _⟩ :=
      scheduleNext_at { s with jobs := alSet s.jobs k (jobAfterDispatch env j) } k
        (jobAfterDispatch env j) (by simp [alGet_alSet_self])
    exact ⟨j', hj', by rw [hres', hres]⟩

/-- C5, witness: the characterisation on the concrete check-enabled job. -/
theorem C5_pending_launch_witness :
    ((resultOf envCreateFail jC5).liveStatus = "Pending" ↔
      jC5.formData.checkStatus = true) ∧
    ((processEmail envCreateFail sC5 "crm-5").2 = launchOf envCreateFail jC5) ∧
    ((launchOf envCreateFail jC5).isSome = true ↔
      (jC5.formData.checkStatus = true ∧
       (dispatchCompute envCreateFail jC5.formData).contactId.isSome = true)) ∧
    (∃ j', alGet (processEmail envCreateFail sC5 "crm-5").1.jobs "crm-5" = some j' ∧
      j'.results = jC5.results ++ [resultOf envCreateFail jC5]) :=
  C5_pending_launch envCreateFail sC5 "crm-5" jC5 (by decide) (by decide)

/-- C8: `pause` leaves the whole job table unchanged when the key's record
is not `processing`; on a `processing` record it sets `status = Paused`
and removes both the dispatch timer and the countdown ticker for the key,
and from then on no sequence of events avoiding `resume` and `start` for
that key advances the cursor or appends a result, no matter how many
timer fires and ticks occur. -/
theorem C8_pause_freezes (s : MState) (acc : String) (plat : Platform) (j : Job)
    (hj : alGet s.jobs (getJobKey plat acc) = some j) :
    (j.status ≠ JobStatus.processing → (pauseJob s acc plat).jobs = s.jobs) ∧
    (j.status = JobStatus.processing →
      alGet (pauseJob s acc plat).jobs (getJobKey plat acc) =
        some { j with status := JobStatus.paused } ∧
      getJobKey plat acc ∉ (pauseJob s acc plat).timers ∧
      getJobKey plat acc ∉ (pauseJob s acc plat).tickers ∧
      (∀ ops, (∀ op ∈ ops, op.startsKey (getJobKey plat acc) = false ∧
          op.resumesKey (getJobKey plat acc) = false) →
        ∃ j', alGet (run (pauseJob s acc plat) ops).jobs (getJobKey plat acc) =
            some j' ∧
          j'.status ≠ JobStatus.processing ∧
          j'.currentIndex = j.currentIndex ∧
          j'.results.length = j.results.length)) := by
  constructor
  · intro hnp
    rw [pauseJob_notProcessing s acc plat j hj hnp]
    rfl
  · intro hp
    obtain ⟨hpj, htm, htk⟩ := pauseJob_processing s acc plat j hj hp
    refine ⟨hpj, htm, htk, ?_⟩
    intro ops hav
    obtain ⟨j', hj', hnp', hc', hr'⟩ :=
      notProcessing_frozen_run (getJobKey plat acc) ops (pauseJob s acc plat)
        { j with status := JobStatus.paused } hpj (by intro hcon; cases hcon) hav
    exact ⟨j', hj', hnp', hc', hr'⟩

/-- C8, witness: pausing the processing two-item job `jC7`, then letting a
timer fire and ticks pass, leaves cursor and results frozen. -/
theorem C8_pause_freezes_witness :
    jC7.status = JobStatus.processing ∧
    (∃ j', alGet (run (pauseJob sC7 "3" Platform.crm)
        [Op.timer "crm-3" okEnv, Op.tick "crm-3", Op.tick "crm-3"]).jobs "crm-3" =
          some j' ∧
      j'.status ≠ JobStatus.processing ∧
      j'.currentIndex = jC7.currentIndex ∧
      j'.results.length = jC7.results.length) :=
  ⟨by decide,
   ((C8_pause_freezes sC7 "3" Platform.crm jC7 (by decide)).2 (by decide)).2.2.2
     [Op.timer "crm-3" okEnv, Op.tick "crm-3", Op.tick "crm-3"] (by decide)⟩

/-- C9: a verification-task completion changes nothing but the targeted
result record's `liveStatus` and live-response capture: the timer tables,
every other job, and every other field of the job and of the record
(identity fields included) are untouched, the results list keeps its
length, other slots are unchanged, and any exception during the check
leaves the slot's `liveStatus` as `"Failed Check"` with the error
captured. -/
theorem C9_verification_frame (cenv : CheckEnv) (s : MState) (k : String) (i : Nat) :
    (verifComplete cenv s k i).timers = s.timers ∧
    (verifComplete cenv s k i).tickers = s.tickers ∧
    (∀ k', k' ≠ k → alGet (verifComplete cenv s k i).jobs k' = alGet s.jobs k') ∧
    (∀ j, alGet s.jobs k = some j →
      ∃ j', alGet (verifComplete cenv s k i).jobs k = some j' ∧
        j'.status = j.status ∧ j'.currentIndex = j.currentIndex ∧
        j'.emails = j.emails ∧ j'.totalEmails = j.totalEmails ∧
        j'.delay = j.delay ∧ j'.formData = j.formData ∧
        j'.error = j.error ∧ j'.countdown = j.countdown ∧
        j'.platform = j.platform ∧ j'.accountId = j.accountId ∧
        j'.results.length = j.results.length ∧
        (∀ m, m ≠ i → j'.results.get? m = j.results.get? m) ∧
        (∀ item, j.results.get? i = some item →
          j'.results.get? i = some (runVerification cenv item) ∧
          (runVerification cenv item).email = item.email ∧
          (runVerification cenv item).contactStatus = item.contactStatus ∧
          (runVerification cenv item).emailStatus = item.emailStatus) ∧
        (∀ msg item, cenv = CheckEnv.exn msg → j.results.get? i = some item →
          (runVerification cenv item).liveStatus = "Failed Check" ∧
          (runVerification cenv item).liveResp = some (LiveCapture.failure msg))) := by
  refine ⟨?_, ?_, ?_, ?_⟩
  · unfold verifComplete
    split
    · rfl
    · split
      · rfl
      · rfl
  · unfold verifComplete
    split
    · rfl
    · split
      · rfl
      · rfl
  · intro k' hk'
    exact step_jobs_ne s (Op.verif k i cenv) k' (fun hc => hk' hc.symm)
  · intro j hj
    unfold verifComplete
    split
    · next hnone =>
        exact absurd (hj.symm.trans hnone) (by simp)
    · next job hjob =>
        have hh : some j = some job := hj.symm.trans hjob
        injection hh with hh
        subst hh
        split
        · next hnone =>
            refine ⟨j, hj, rfl, rfl, rfl, rfl, rfl, rfl, rfl, rfl, rfl, rfl, rfl,
              fun m _ => rfl, ?_, ?_⟩
            · intro item hitem
              exact absurd (hnone.symm.trans hitem) (by simp)
            · intro msg item hcenv hitem
              exact absurd (hnone.symm.trans hitem) (by simp)
        · next item hitem =>
            obtain ⟨hlt, _⟩ := List.get?_eq_some.mp hitem
            refine ⟨{ j with results := j.results.set i (runVerification cenv item) },
              by simp [alGet_alSet_self], rfl, rfl, rfl, rfl, rfl, rfl, rfl, rfl,
              rfl, rfl, by simp, ?_, ?_, ?_⟩
            · intro m hm
              simp [List.getElem?_set_ne (fun hc => hm hc.symm)]
            · intro item2 hitem2
              have hii : some item = some item2 := hitem.symm.trans hitem2
              injection hii with hii
              subst hii
              obtain ⟨he, hcs, hes⟩ := runVerification_identity cenv item
              refine ⟨?_, he, hcs, hes⟩
              simp [List.getElem?_set_eq_of_lt _ hlt]
            · intro msg item2 hcenv hitem2
              have hii : some item = some item2 := hitem.symm.trans hitem2
              injection hii with hii
              subst hii
              subst hcenv
              exact ⟨rfl, rfl⟩

/-- C9, witness: a failing check on the completed job's single record. -/
theorem C9_verification_frame_witness :
    ∃ j', alGet (verifComplete (CheckEnv.exn "boom") sDone "crm-1" 0).jobs "crm-1" =
        some j' ∧
      j'.status = jDone.status ∧ j'.currentIndex = jDone.currentIndex ∧
      j'.emails = jDone.emails ∧ j'.totalEmails = jDone.totalEmails ∧
      j'.delay = jDone.delay ∧ j'.formData = jDone.formData ∧
      j'.error = jDone.error ∧ j'.countdown = jDone.countdown ∧
      j'.platform = jDone.platform ∧ j'.accountId = jDone.accountId ∧
      j'.results.length = jDone.results.length ∧
      (∀ m, m ≠ 0 → j'.results.get? m = jDone.results.get? m) ∧
      (∀ item, jDone.results.get? 0 = some item →
        j'.results.get? 0 = some (runVerification (CheckEnv.exn "boom") item) ∧
        (runVerification (CheckEnv.exn "boom") item).email = item.email ∧
        (runVerification (CheckEnv.exn "boom") item).contactStatus = item.contactStatus ∧
        (runVerification (CheckEnv.exn "boom") item).emailStatus = item.emailStatus) ∧
      (∀ msg item, CheckEnv.exn "boom" = CheckEnv.exn msg →
        jDone.results.get? 0 = some item →
        (runVerification (CheckEnv.exn "boom") item).liveStatus = "Failed Check" ∧
        (runVerification (CheckEnv.exn "boom") item).liveResp =
          some (LiveCapture.failure msg)) :=
  (C9_verification_frame (CheckEnv.exn "boom") sDone "crm-1" 0).2.2.2 jDone (by decide)

end ZohoJobs
